import Mathlib

/-!
Verification of the transport-request backend's journal store, sync engine,
retry policy, attachment aggregation, retention sweep and request-id
generation, as a shallow embedding of the Python sources
(`backend/utils/helpers/json_helper.py`, `backend/utils/scheduler_manager.py`,
`backend/utils/transport_handler.py`, `backend/fastapi_app.py`).
-/

namespace TransportApp

/-- The form-data dictionary received at the intake boundary.  Each field
models `data_dict.get(key)`: `none` when the key is absent from the dict. -/
structure FormData where
  deliveryNoteNumber : Option String := none
  truckLicensePlates : Option String := none
  trailerLicensePlates : Option String := none
  carrierCountry : Option String := none
  carrierTaxCode : Option String := none
  carrierFullName : Option String := none
  borderCrossing : Option String := none
  borderCrossingDate : Option String := none
  email : Option String := none
  phoneNumber : Option String := none
deriving Repr, DecidableEq

/-- One journal record: the `row_data` dict built by
`JSONHelper.save_initial_record` (json_helper.py lines 57-74).  All writes to
the journal file go through that function, so every persisted entry has this
shape. -/
structure Entry where
  requestId : String
  timestamp : String
  deliveryNoteNumber : String
  truckLicensePlates : String
  trailerLicensePlates : String
  carrierCountry : String
  carrierTaxCode : String
  carrierFullName : String
  borderCrossing : String
  borderCrossingDate : String
  email : String
  phoneNumber : String
  hasAttachment : String
  attachmentStatus : String
  attachmentError : String
  sharePointSynced : Bool
deriving Repr, DecidableEq

instance : Inhabited Entry :=
  ⟨⟨"", "", "", "", "", "", "", "", "", "", "", "", "", "", "", false⟩⟩

/-- The `row_data` dict of `JSONHelper.save_initial_record`
(json_helper.py lines 57-74): each business field is
`data_dict.get(key, '')`, `Has_Attachment` / `Attachment_Status` are
`'Processing'` when attachments are pending, and `SharePoint_Synced`
starts out `False`. -/
def buildRow (requestId timestamp : String) (d : FormData)
    (hasAttachments : Bool) : Entry where
  requestId := requestId
  timestamp := timestamp
  deliveryNoteNumber := d.deliveryNoteNumber.getD ""
  truckLicensePlates := d.truckLicensePlates.getD ""
  trailerLicensePlates := d.trailerLicensePlates.getD ""
  carrierCountry := d.carrierCountry.getD ""
  carrierTaxCode := d.carrierTaxCode.getD ""
  carrierFullName := d.carrierFullName.getD ""
  borderCrossing := d.borderCrossing.getD ""
  borderCrossingDate := d.borderCrossingDate.getD ""
  email := d.email.getD ""
  phoneNumber := d.phoneNumber.getD ""
  hasAttachment := if hasAttachments then "Processing" else "No"
  attachmentStatus := if hasAttachments then "Processing" else "None"
  attachmentError := ""
  sharePointSynced := false

/-- State of the JSON backup file (`self.json_path`).
`absent`: the file does not exist (`json_path.exists()` is false).
`good l`: the file exists, is readable and parses to the entry list `l`.
`unreadable l`: the file exists and holds the persisted entries `l`, but
reading it raises (I/O error / permission / transient corruption), so
`json.load` fails.  `corrupted`: the file exists but holds unspecified
garbage, e.g. after an interrupted write (`open(..., 'w')` truncates before
`json.dump` runs), so reading it also raises. -/
inductive FileState
  | absent
  | good (entries : List Entry)
  | unreadable (entries : List Entry)
  | corrupted
deriving Repr, DecidableEq

/-- `JSONHelper.save_initial_record` (json_helper.py lines 33-92).
If the file exists but loading raises, the code logs a warning and starts
from an empty list (lines 50-54).  It then appends the new row and rewrites
the whole file.  `writeOk` models whether the rewrite (lines 80-85)
succeeds; when it fails, the surrounding `try` returns `None` and the
truncated file is left in an unspecified state.  The returned `Option Nat`
is the Python return value: the index of the saved record, or `None`. -/
def save_initial_record (fs : FileState) (writeOk : Bool)
    (requestId timestamp : String) (d : FormData) (hasAttachments : Bool) :
    FileState × Option Nat :=
  let existingData : List Entry :=
    match fs with
    | .absent => []
    | .good l => l
    | .unreadable _ => []
    | .corrupted => []
  let newData := existingData ++ [buildRow requestId timestamp d hasAttachments]
  if writeOk then (.good newData, some (newData.length - 1))
  else (.corrupted, none)

/-- Error values that `JSONHelper.update_sync_status` could conceivably
report to its caller.  The Python function returns `None` on every path and
catches every exception (json_helper.py lines 94-126), so the model never
produces `some _`; the channel exists to state what the spec expects. -/
inductive JsonStoreError
  | notFound
deriving Repr, DecidableEq

/-- `JSONHelper.update_sync_status` (json_helper.py lines 94-126): if the
file is missing, log and return; if loading raises, the outer `except`
swallows it; if `0 <= record_index < len(records)`, set the record's
`SharePoint_Synced` and rewrite the file; otherwise log a warning and
return.  The second component is the value reported to the caller: `none`
on every path, mirroring the Python `None` return and the catch-all
`except`. -/
def update_sync_status (fs : FileState) (writeOk : Bool)
    (recordIndex : Nat) (synced : Bool) : FileState × Option JsonStoreError :=
  match fs with
  | .absent => (fs, none)
  | .unreadable l => (.unreadable l, none)
  | .corrupted => (fs, none)
  | .good records =>
    if h : recordIndex < records.length then
      let e := records.get ⟨recordIndex, h⟩
      let updated := records.set recordIndex { e with sharePointSynced := synced }
      if writeOk then (.good updated, none) else (.corrupted, none)
    else (fs, none)

/-- `JSONHelper.update_attachment_status` (json_helper.py lines 128-158):
if the file is missing or unreadable, return; if the index is in range, set
`Has_Attachment` to `'Yes'` iff some attachment was saved,
`Attachment_Status` to `'Saved' if has_attachment else ('Failed' if
attachments_errors else 'None')`, and `Attachment_Error` to the `'; '`-join
of the errors (empty when there are none), then rewrite the file. -/
def update_attachment_status (fs : FileState) (writeOk : Bool)
    (recordIndex : Nat) (attachmentsSaved attachmentsErrors : List String) :
    FileState :=
  match fs with
  | .absent => fs
  | .unreadable l => .unreadable l
  | .corrupted => fs
  | .good records =>
    if h : recordIndex < records.length then
      let e := records.get ⟨recordIndex, h⟩
      let hasAttachment := 0 < attachmentsSaved.length
      let e' := { e with
        hasAttachment := if hasAttachment then "Yes" else "No"
        attachmentStatus :=
          if hasAttachment then "Saved"
          else if attachmentsErrors ≠ [] then "Failed" else "None"
        attachmentError :=
          if attachmentsErrors ≠ [] then String.intercalate "; " attachmentsErrors
          else "" }
      if writeOk then .good (records.set recordIndex e') else .corrupted
    else fs

/-- The form-data dict rebuilt by
`SchedulerManager._convert_record_to_form_data` (scheduler_manager.py lines
239-252).  Every key is present, so the fields are plain strings. -/
structure FormValues where
  deliveryNoteNumber : String
  truckLicensePlates : String
  trailerLicensePlates : String
  carrierCountry : String
  carrierTaxCode : String
  carrierFullName : String
  borderCrossing : String
  borderCrossingDate : String
  email : String
  phoneNumber : String
deriving Repr, DecidableEq

/-- `SchedulerManager._convert_record_to_form_data` (scheduler_manager.py
lines 239-252): each value is `record.get(Key, '')`; journal entries always
carry these keys (they are written by `save_initial_record`), so the
defaults never fire on entries of the typed model. -/
def convert_record_to_form_data (r : Entry) : FormValues where
  deliveryNoteNumber := r.deliveryNoteNumber
  truckLicensePlates := r.truckLicensePlates
  trailerLicensePlates := r.trailerLicensePlates
  carrierCountry := r.carrierCountry
  carrierTaxCode := r.carrierTaxCode
  carrierFullName := r.carrierFullName
  borderCrossing := r.borderCrossing
  borderCrossingDate := r.borderCrossingDate
  email := r.email
  phoneNumber := r.phoneNumber

/-- A concrete journal entry used by concrete witnesses and
counterexamples. -/
def sampleEntry : Entry :=
  buildRow "REQ-20260101-100000-500" "2026-01-01T10:00:00" {} false

/-- Retrieve the entry stored at a given index of the journal file, when the
file is in a readable state. -/
def entryAt (fs : FileState) (i : Nat) : Option Entry :=
  match fs with
  | .good l => l.get? i
  | _ => none

/-- C10: round-trip of the ten business fields.  Converting the journal
record that `save_initial_record` builds from a form dict `d` back to form
data yields exactly `d`'s ten business values, with keys absent from `d`
mapped to the empty string. -/
theorem convert_buildRow_roundTrip (requestId timestamp : String)
    (d : FormData) (hasAttachments : Bool) :
    convert_record_to_form_data (buildRow requestId timestamp d hasAttachments) =
      ⟨d.deliveryNoteNumber.getD "", d.truckLicensePlates.getD "",
       d.trailerLicensePlates.getD "", d.carrierCountry.getD "",
       d.carrierTaxCode.getD "", d.carrierFullName.getD "",
       d.borderCrossing.getD "", d.borderCrossingDate.getD "",
       d.email.getD "", d.phoneNumber.getD ""⟩ := rfl

/-- C7 counterexample: the journal file holds one persisted entry but
reading it fails.  `save_initial_record` then starts from an empty list:
the resulting journal contains only the new record (the previously
persisted `sampleEntry` is gone) and the call reports success (`some 0`),
not a failure.  This refutes the claim that previously persisted entries
survive and that the failure is reported to the caller. -/
theorem save_initial_record_read_failure_loses_entries :
    (save_initial_record (.unreadable [sampleEntry]) true
        "REQ-20260101-100100-501" "2026-01-01T10:01:00" {} false).1 =
      .good [buildRow "REQ-20260101-100100-501" "2026-01-01T10:01:00" {} false] ∧
    (save_initial_record (.unreadable [sampleEntry]) true
        "REQ-20260101-100100-501" "2026-01-01T10:01:00" {} false).2 = some 0 ∧
    sampleEntry ∉
      [buildRow "REQ-20260101-100100-501" "2026-01-01T10:01:00" {} false] := by
  refine ⟨rfl, rfl, ?_⟩
  decide

/-- C7 amended: when reading the previously persisted journal fails during
an append, `save_initial_record` starts a fresh journal: the file afterwards
contains exactly the one new record (whatever was persisted before is no
longer in the journal file), and the call reports success with index 0
rather than an error. -/
theorem save_initial_record_read_failure (l : List Entry)
    (requestId timestamp : String) (d : FormData) (hasAttachments : Bool) :
    save_initial_record (.unreadable l) true requestId timestamp d hasAttachments =
      (.good [buildRow requestId timestamp d hasAttachments], some 0) := rfl

/-- C8 counterexample: patching index 5 of a one-entry journal.  The call
leaves the journal unchanged but reports nothing to the caller (the Python
function returns `None` on every path and swallows every exception), so the
claim that it "fails by reporting a NotFound error to the caller" is false
at this input. -/
theorem update_sync_status_out_of_range_reports_nothing :
    (update_sync_status (.good [sampleEntry]) true 5 true).2 ≠
      some JsonStoreError.notFound ∧
    (update_sync_status (.good [sampleEntry]) true 5 true).2 = none := by
  exact ⟨by decide, rfl⟩

/-- C8 amended: calling `update_sync_status` with an index outside
`[0, length)` leaves every journal entry unchanged and reports no error to
the caller (it only logs a warning and returns normally). -/
theorem update_sync_status_out_of_range (records : List Entry)
    (writeOk : Bool) (recordIndex : Nat) (synced : Bool)
    (h : records.length ≤ recordIndex) :
    update_sync_status (.good records) writeOk recordIndex synced =
      (.good records, none) := by
  simp [update_sync_status, Nat.not_lt.2 h]

/-- Witness for `update_sync_status_out_of_range` at a concrete journal and
index. -/
theorem update_sync_status_out_of_range_witness :
    [sampleEntry].length ≤ 5 ∧
    update_sync_status (.good [sampleEntry]) true 5 true =
      (.good [sampleEntry], none) :=
  ⟨by decide, update_sync_status_out_of_range [sampleEntry] true 5 true (by decide)⟩

/-- One element of the `results` list produced by `asyncio.gather(...,
return_exceptions=True)` in `TransportRequestHandler.process_submission`
(transport_handler.py lines 124-135): either the upload task raised (the
gathered value is an `Exception`), or `upload_single_attachment` finished
and returned its `(success, filename, error)` tuple. -/
inductive UploadResult
  | raised (msg : String)
  | finished (success : Bool) (filename : String) (errorMsg : String)
deriving Repr, DecidableEq

/-- Loop body of the result-collection loop of `process_submission`
(transport_handler.py lines 127-135): an exception or a failed upload pushes
its message onto `attachments_errors`, a successful upload pushes its
filename onto `attachments_saved`. -/
def collectStep (acc : List String × List String) (r : UploadResult) :
    List String × List String :=
  match r with
  | .raised m => (acc.1, acc.2 ++ [m])
  | .finished true filename _ => (acc.1 ++ [filename], acc.2)
  | .finished false _ e => (acc.1, acc.2 ++ [e])

/-- The result-collection loop of `process_submission` (transport_handler.py
lines 127-135), folded over the gathered upload results. -/
def collectUploadResults (results : List UploadResult) :
    List String × List String :=
  results.foldl collectStep ([], [])

/-- Whether an upload outcome is a success. -/
def succeeded : UploadResult → Bool
  | .finished true _ _ => true
  | _ => false

/-- The filename recorded for a successful outcome. -/
def successName : UploadResult → Option String
  | .finished true filename _ => some filename
  | _ => none

/-- The message recorded for a failed outcome (a raised exception or a
`success=False` return). -/
def failureMsg : UploadResult → Option String
  | .raised m => some m
  | .finished false _ e => some e
  | .finished true _ _ => none

theorem collectUploadResults_eq (results : List UploadResult) :
    collectUploadResults results =
      (results.filterMap successName, results.filterMap failureMsg) := by
  suffices h : ∀ acc : List String × List String,
      results.foldl collectStep acc =
        (acc.1 ++ results.filterMap successName,
         acc.2 ++ results.filterMap failureMsg) by
    simpa [collectUploadResults] using h ([], [])
  induction results with
  | nil => intro acc; simp
  | cons r rest ih =>
    intro acc
    cases r with
    | raised m => simp [List.foldl_cons, collectStep, ih, successName, failureMsg]
    | finished success filename e =>
      cases success <;>
        simp [List.foldl_cons, collectStep, ih, successName, failureMsg]

theorem successName_eq_none (r : UploadResult) :
    successName r = none ↔ succeeded r = false := by
  cases r with
  | raised m => simp [succeeded, successName]
  | finished success filename e => cases success <;> simp [succeeded, successName]

theorem failureMsg_eq_none (r : UploadResult) :
    failureMsg r = none ↔ succeeded r = true := by
  cases r with
  | raised m => simp [succeeded, failureMsg]
  | finished success filename e => cases success <;> simp [succeeded, failureMsg]

theorem saved_eq_nil_iff (results : List UploadResult) :
    results.filterMap successName = [] ↔ ∀ r ∈ results, succeeded r = false := by
  rw [List.filterMap_eq_nil_iff]
  exact ⟨fun hall r hr => (successName_eq_none r).1 (hall r hr),
    fun hall r hr => (successName_eq_none r).2 (hall r hr)⟩

theorem errs_eq_nil_iff (results : List UploadResult) :
    results.filterMap failureMsg = [] ↔ ∀ r ∈ results, succeeded r = true := by
  rw [List.filterMap_eq_nil_iff]
  exact ⟨fun hall r hr => (failureMsg_eq_none r).1 (hall r hr),
    fun hall r hr => (failureMsg_eq_none r).2 (hall r hr)⟩

theorem update_attachment_status_good (records : List Entry) (i : Nat)
    (h : i < records.length) (saved errs : List String) :
    update_attachment_status (.good records) true i saved errs =
      .good (records.set i
        { records.get ⟨i, h⟩ with
          hasAttachment := if 0 < saved.length then "Yes" else "No"
          attachmentStatus :=
            if 0 < saved.length then "Saved"
            else if errs ≠ [] then "Failed" else "None"
          attachmentError :=
            if errs ≠ [] then String.intercalate "; " errs else "" }) := by
  simp [update_attachment_status, dif_pos h]

theorem entryAt_good_set (l : List Entry) (i : Nat) (e : Entry)
    (h : i < l.length) : entryAt (.good (l.set i e)) i = some e := by
  simp only [entryAt]
  rw [List.get?_eq_getElem?, List.getElem?_set_self']
  simp [List.getElem?_eq_getElem h]

/-- C5: attachment-outcome aggregation.  Feeding the collected upload
outcomes of one submission into the journal patch
`update_attachment_status` yields `Attachment_Status = 'Saved'` iff at
least one upload succeeded, `'Failed'` iff none succeeded and at least one
failure occurred, and `'None'` iff there were no outcomes at all; the
recorded `Attachment_Error` is the `'; '`-join of the failure messages and
is empty when there are no failures. -/
theorem attachment_status_aggregation (records : List Entry)
    (results : List UploadResult) (recordIndex : Nat)
    (h : recordIndex < records.length) :
    ∃ e : Entry,
      entryAt
        (update_attachment_status (.good records) true recordIndex
          (collectUploadResults results).1 (collectUploadResults results).2)
        recordIndex = some e ∧
      (e.attachmentStatus = "Saved" ↔ ∃ r ∈ results, succeeded r = true) ∧
      (e.attachmentStatus = "Failed" ↔
        (¬ ∃ r ∈ results, succeeded r = true) ∧
        ∃ r ∈ results, succeeded r = false) ∧
      (e.attachmentStatus = "None" ↔ results = []) ∧
      e.attachmentError =
        String.intercalate "; " (results.filterMap failureMsg) ∧
      (results.filterMap failureMsg = [] → e.attachmentError = "") := by
  classical
  have hSaved_ex : results.filterMap successName ≠ [] →
      ∃ r ∈ results, succeeded r = true := by
    intro hS
    rcases List.exists_mem_of_ne_nil _ hS with ⟨m, hm⟩
    rcases List.mem_filterMap.1 hm with ⟨r, hr, hrm⟩
    cases h' : succeeded r with
    | false => rw [(successName_eq_none r).2 h'] at hrm; exact Option.noConfusion hrm
    | true => exact ⟨r, hr, h'⟩
  have hErr_ex : results.filterMap failureMsg ≠ [] →
      ∃ r ∈ results, succeeded r = false := by
    intro hE
    rcases List.exists_mem_of_ne_nil _ hE with ⟨m, hm⟩
    rcases List.mem_filterMap.1 hm with ⟨r, hr, hrm⟩
    cases h' : succeeded r with
    | false => exact ⟨r, hr, h'⟩
    | true => rw [(failureMsg_eq_none r).2 h'] at hrm; exact Option.noConfusion hrm
  have hNo_succ : results.filterMap successName = [] →
      ¬ ∃ r ∈ results, succeeded r = true := by
    rintro hS ⟨r, hr, h'⟩
    rw [(saved_eq_nil_iff results).1 hS r hr] at h'
    exact Bool.noConfusion h'
  have hNo_fail : results.filterMap failureMsg = [] →
      ¬ ∃ r ∈ results, succeeded r = false := by
    rintro hE ⟨r, hr, h'⟩
    rw [(errs_eq_nil_iff results).1 hE r hr] at h'
    exact Bool.noConfusion h'
  have hres_nil : results.filterMap successName = [] →
      results.filterMap failureMsg = [] → results = [] := by
    intro hS hE
    cases results with
    | nil => rfl
    | cons r rest =>
      exfalso
      cases h' : succeeded r with
      | false => exact absurd ((errs_eq_nil_iff _).1 hE r (by simp)) (by simp [h'])
      | true => exact absurd ((saved_eq_nil_iff _).1 hS r (by simp)) (by simp [h'])
  rw [collectUploadResults_eq]
  rw [update_attachment_status_good records recordIndex h]
  refine ⟨_, entryAt_good_set _ _ _ h, ?_, ?_, ?_, ?_, ?_⟩
  · by_cases hS : results.filterMap successName = []
    · rw [hS]
      simp only [List.length_nil, if_neg (by decide : ¬ (0:Nat) < 0)]
      constructor
      · intro hbad
        by_cases hE : results.filterMap failureMsg = [] <;> simp [hE] at hbad
      · intro hex; exact absurd hex (hNo_succ hS)
    · have hlen : 0 < (results.filterMap successName).length := List.length_pos.2 hS
      simp only [if_pos hlen, true_iff]
      exact hSaved_ex hS
  · by_cases hS : results.filterMap successName = []
    · by_cases hE : results.filterMap failureMsg = []
      · rw [hS, hE]
        simp only [List.length_nil, if_neg (by decide : ¬ (0:Nat) < 0), ne_eq,
          not_true_eq_false, if_neg (by simp : ¬ ([] : List String) ≠ [])]
        constructor
        · intro hbad; exact absurd hbad (by decide)
        · rintro ⟨-, hex⟩; exact absurd hex (hNo_fail hE)
      · rw [hS]
        simp only [List.length_nil, if_neg (by decide : ¬ (0:Nat) < 0), if_pos hE,
          true_iff]
        exact ⟨hNo_succ hS, hErr_ex hE⟩
    · have hlen : 0 < (results.filterMap successName).length := List.length_pos.2 hS
      simp only [if_pos hlen]
      constructor
      · intro hbad; exact absurd hbad (by decide)
      · rintro ⟨hno, -⟩; exact absurd (hSaved_ex hS) hno
  · by_cases hS : results.filterMap successName = []
    · by_cases hE : results.filterMap failureMsg = []
      · have hres := hres_nil hS hE
        subst hres
        simp
      · rw [hS]
        simp only [List.length_nil, if_neg (by decide : ¬ (0:Nat) < 0), if_pos hE]
        constructor
        · intro hbad; exact absurd hbad (by decide)
        · intro hr; subst hr; simp at hE
    · have hlen : 0 < (results.filterMap successName).length := List.length_pos.2 hS
      simp only [if_pos hlen]
      constructor
      · intro hbad; exact absurd hbad (by decide)
      · intro hr; subst hr; simp at hS
  · by_cases hE : results.filterMap failureMsg = []
    · simp only [hE, ne_eq, not_true_eq_false, if_neg (by simp : ¬ ([] : List String) ≠ [])]
      rfl
    · simp [hE]
  · intro hE; simp [hE]

/-- Python's `str.strip()`: drop leading and trailing whitespace.  Defined
structurally over the character list so that concrete values reduce. -/
def pyStrip (s : String) : String :=
  ⟨((s.data.dropWhile Char.isWhitespace).reverse.dropWhile
      Char.isWhitespace).reverse⟩

/-- The existing-ID set drawn from the remote Excel table's first column
(scheduler_manager.py lines 109-113): a data-row cell contributes its value
when the cell is truthy and non-blank after stripping
(`if cell_value and str(cell_value).strip()`).  `remoteRows` is the list of
column-A values of the table's data rows (row 2 onward). -/
def existingIdsOf (remoteRows : List String) : List String :=
  remoteRows.filter (fun s => s != "" && pyStrip s != "")

/-- The unsynced records of one run (scheduler_manager.py line 77):
`[r for r in json_records if not r.get('SharePoint_Synced', False)]`. -/
def unsyncedOf (records : List Entry) : List Entry :=
  records.filter (fun r => !r.sharePointSynced)

/-- The records the run pushes remotely (scheduler_manager.py lines
118-122): unsynced records whose `Request_ID` is truthy and not in the
existing-ID set. -/
def recordsToSyncOf (unsynced : List Entry) (existing : List String) :
    List Entry :=
  unsynced.filter (fun r => r.requestId != "" && !(existing.contains r.requestId))

/-- `json_records.index(record)` followed by
`SchedulerManager._update_json_sync_status(..., True)` (scheduler_manager.py
lines 158-159, 397-398, 400-408): Python's `list.index` finds the first
element value-equal to `record`, and the helper sets its
`SharePoint_Synced` to the given value and rewrites the file. -/
def markSyncedFirstEq : List Entry → Entry → List Entry
  | [], _ => []
  | x :: xs, r =>
    if x = r then { x with sharePointSynced := true } :: xs
    else x :: markSyncedFirstEq xs r

/-- `SchedulerManager._mark_records_as_synced` (scheduler_manager.py lines
392-398): for each unsynced record whose `Request_ID` is in the existing-ID
set, locate it by value in `json_records` and mark it synced. -/
def markRecordsAsSynced (records unsynced : List Entry)
    (existing : List String) : List Entry :=
  unsynced.foldl
    (fun recs r =>
      if r.requestId ∈ existing then markSyncedFirstEq recs r else recs)
    records

/-- Accumulated state of the per-record push loop of
`sync_json_to_sharepoint` (scheduler_manager.py lines 133-163): the current
journal list, the remote table's column-A rows, and the synced/failed
counters. -/
structure LoopState where
  records : List Entry
  remote : List String
  syncedCount : Nat
  failedCount : Nat
deriving Repr, DecidableEq

/-- The per-record push loop (scheduler_manager.py lines 138-163).
`pushOk r` tells whether `_save_via_excel_api` / `_save_via_traditional`
succeeds for `r`; on success the remote table gains a row carrying
`r.requestId` in column A and the record is marked synced in the journal;
on failure the per-record `except` swallows the error and increments
`failed_count`. -/
def syncLoop (pushOk : Entry → Bool) (toSync : List Entry)
    (st : LoopState) : LoopState :=
  toSync.foldl
    (fun st r =>
      if pushOk r then
        { records := markSyncedFirstEq st.records r
          remote := st.remote ++ [r.requestId]
          syncedCount := st.syncedCount + 1
          failedCount := st.failedCount }
      else { st with failedCount := st.failedCount + 1 })
    st

/-- Outcome of one run of `SchedulerManager.sync_json_to_sharepoint`: the
journal file, the remote table's column-A rows, and the two counters. -/
structure SyncResult where
  file : FileState
  remote : List String
  syncedCount : Nat
  failedCount : Nat
deriving Repr, DecidableEq

/-- `SchedulerManager.sync_json_to_sharepoint` (scheduler_manager.py lines
42-168).  Early returns: SharePoint disabled, journal file missing,
journal empty, or no unsynced records.  Reading the journal or scanning the
remote table may raise; the outer `except` then leaves everything
unchanged, which the `unreadable`/`corrupted` branches model.  If every
unsynced record is already remote, `_mark_records_as_synced` runs;
otherwise the push loop runs over `records_to_sync`.  The journal rewrites
inside the loop are modelled as succeeding. -/
def sync_json_to_sharepoint (enabled : Bool) (fs : FileState)
    (remoteRows : List String) (pushOk : Entry → Bool) : SyncResult :=
  if !enabled then ⟨fs, remoteRows, 0, 0⟩
  else
    match fs with
    | .absent => ⟨fs, remoteRows, 0, 0⟩
    | .unreadable l => ⟨.unreadable l, remoteRows, 0, 0⟩
    | .corrupted => ⟨fs, remoteRows, 0, 0⟩
    | .good records =>
      if records = [] then ⟨.good records, remoteRows, 0, 0⟩
      else
        let unsynced := unsyncedOf records
        if unsynced = [] then ⟨.good records, remoteRows, 0, 0⟩
        else
          let existing := existingIdsOf remoteRows
          let toSync := recordsToSyncOf unsynced existing
          if toSync = [] then
            ⟨.good (markRecordsAsSynced records unsynced existing),
             remoteRows, 0, 0⟩
          else
            let final := syncLoop pushOk toSync ⟨records, remoteRows, 0, 0⟩
            ⟨.good final.records, final.remote, final.syncedCount,
             final.failedCount⟩

/-- A concrete upload-outcome list: one success, one raised exception. -/
def sampleResults : List UploadResult :=
  [.finished true "a.pdf" "", .raised "upload failed: boom"]

/-- Witness for `attachment_status_aggregation` at a one-entry journal and
a two-outcome upload list. -/
theorem attachment_status_aggregation_witness :
    0 < [sampleEntry].length ∧
    (∃ e : Entry,
      entryAt
        (update_attachment_status (.good [sampleEntry]) true 0
          (collectUploadResults sampleResults).1
          (collectUploadResults sampleResults).2) 0 = some e ∧
      (e.attachmentStatus = "Saved" ↔
        ∃ r ∈ sampleResults, succeeded r = true) ∧
      (e.attachmentStatus = "Failed" ↔
        (¬ ∃ r ∈ sampleResults, succeeded r = true) ∧
        ∃ r ∈ sampleResults, succeeded r = false) ∧
      (e.attachmentStatus = "None" ↔ sampleResults = []) ∧
      e.attachmentError =
        String.intercalate "; " (sampleResults.filterMap failureMsg) ∧
      (sampleResults.filterMap failureMsg = [] → e.attachmentError = "")) :=
  ⟨by decide, attachment_status_aggregation [sampleEntry] sampleResults 0
    (by decide)⟩

/-- Concrete unsynced journal entries used by witnesses and
counterexamples. -/
def entryA : Entry := buildRow "REQ-A" "2026-01-01T09:00:00" {} false

/-- A second concrete unsynced journal entry. -/
def entryB : Entry := buildRow "REQ-B" "2026-01-01T09:05:00" {} false

theorem mem_recordsToSyncOf {u : List Entry} {e : List String} {r : Entry} :
    r ∈ recordsToSyncOf u e ↔
      r ∈ u ∧ r.requestId ≠ "" ∧ r.requestId ∉ e := by
  constructor
  · intro h
    have := List.mem_filter.1 h
    simpa [bne_iff_ne, and_assoc] using this
  · rintro ⟨hu, h1, h2⟩
    refine List.mem_filter.2 ⟨hu, ?_⟩
    simp [bne_iff_ne]
    exact ⟨h1, h2⟩

theorem syncLoop_remote (pushOk : Entry → Bool) (toSync : List Entry) :
    ∀ st : LoopState,
      (syncLoop pushOk toSync st).remote =
        st.remote ++ (toSync.filter pushOk).map (fun r => r.requestId) := by
  induction toSync with
  | nil => intro st; simp [syncLoop]
  | cons r rest ih =>
    intro st
    by_cases hp : pushOk r
    · have hstep : syncLoop pushOk (r :: rest) st =
          syncLoop pushOk rest
            { records := markSyncedFirstEq st.records r
              remote := st.remote ++ [r.requestId]
              syncedCount := st.syncedCount + 1
              failedCount := st.failedCount } := by
        simp [syncLoop, hp]
      rw [hstep, ih]
      simp [List.filter_cons, hp]
    · have hstep : syncLoop pushOk (r :: rest) st =
          syncLoop pushOk rest { st with failedCount := st.failedCount + 1 } := by
        simp [syncLoop, hp]
      rw [hstep, ih]
      simp [List.filter_cons, hp]

/-- C2: within a single run, every record pushed by the sync loop had a
`Request_ID` absent from the existing-ID set fetched by that run's scan of
the remote table; consequently, when journal IDs are unique, the id is a
real (non-blank) one and the remote table held at most one row for it
before the run, the remote row count for that id still does not exceed one
after the run. -/
theorem sync_never_double_writes (records : List Entry)
    (remoteRows : List String) (pushOk : Entry → Bool) (x : String)
    (hnd : (records.map (fun r => r.requestId)).Nodup)
    (hcount : remoteRows.count x ≤ 1) (hx : pyStrip x ≠ "") :
    (∀ r ∈ recordsToSyncOf (unsyncedOf records) (existingIdsOf remoteRows),
        r.requestId ∉ existingIdsOf remoteRows) ∧
    (sync_json_to_sharepoint true (.good records) remoteRows
        pushOk).remote.count x ≤ 1 := by
  classical
  have hpart : ∀ r ∈ recordsToSyncOf (unsyncedOf records)
      (existingIdsOf remoteRows), r.requestId ∉ existingIdsOf remoteRows :=
    fun r hr => (mem_recordsToSyncOf.1 hr).2.2
  refine ⟨hpart, ?_⟩
  by_cases h0 : records = []
  · subst h0; simpa [sync_json_to_sharepoint] using hcount
  · by_cases h1 : unsyncedOf records = []
    · simpa [sync_json_to_sharepoint, h0, h1] using hcount
    · by_cases h2 : recordsToSyncOf (unsyncedOf records)
          (existingIdsOf remoteRows) = []
      · simpa [sync_json_to_sharepoint, h0, h1, h2] using hcount
      · have hres : (sync_json_to_sharepoint true (.good records) remoteRows
            pushOk).remote =
            remoteRows ++
              ((recordsToSyncOf (unsyncedOf records)
                  (existingIdsOf remoteRows)).filter pushOk).map
                (fun r => r.requestId) := by
          simp [sync_json_to_sharepoint, h0, h1, h2, syncLoop_remote]
        rw [hres, List.count_append]
        by_cases hmem : x ∈
            ((recordsToSyncOf (unsyncedOf records)
                (existingIdsOf remoteRows)).filter pushOk).map
              (fun r => r.requestId)
        · rcases List.mem_map.1 hmem with ⟨r, hrf, hrx⟩
          have hrts := List.mem_of_mem_filter hrf
          have hnotex : x ∉ existingIdsOf remoteRows := hrx ▸ hpart r hrts
          have hxne : x ≠ "" := fun h => hx (by rw [h]; rfl)
          have hxnotrows : x ∉ remoteRows := by
            intro hxr
            refine hnotex (List.mem_filter.2 ⟨hxr, ?_⟩)
            simp [bne_iff_ne]
            exact ⟨hxne, hx⟩
          have hz : remoteRows.count x = 0 := List.count_eq_zero.2 hxnotrows
          have hone : (((recordsToSyncOf (unsyncedOf records)
              (existingIdsOf remoteRows)).filter pushOk).map
                (fun r => r.requestId)).count x ≤ 1 := by
            have hsub : List.Sublist
                ((recordsToSyncOf (unsyncedOf records)
                    (existingIdsOf remoteRows)).filter pushOk) records := by
              refine (List.filter_sublist _).trans ?_
              exact (List.filter_sublist _).trans (List.filter_sublist _)
            have hmap := hsub.map (fun r => r.requestId)
            exact List.nodup_iff_count_le_one.1 (hnd.sublist hmap) x
          omega
        · have hz : (((recordsToSyncOf (unsyncedOf records)
              (existingIdsOf remoteRows)).filter pushOk).map
                (fun r => r.requestId)).count x = 0 :=
            List.count_eq_zero.2 hmem
          omega

/-- Witness for `sync_never_double_writes` at a concrete journal, remote
table and id. -/
theorem sync_never_double_writes_witness :
    ([entryB].map (fun r => r.requestId)).Nodup ∧
    (["REQ-A"] : List String).count "REQ-B" ≤ 1 ∧
    pyStrip "REQ-B" ≠ "" ∧
    ((∀ r ∈ recordsToSyncOf (unsyncedOf [entryB]) (existingIdsOf ["REQ-A"]),
        r.requestId ∉ existingIdsOf ["REQ-A"]) ∧
      (sync_json_to_sharepoint true (.good [entryB]) ["REQ-A"]
          (fun _ => true)).remote.count "REQ-B" ≤ 1) :=
  ⟨by decide, by decide, by decide,
    sync_never_double_writes [entryB] ["REQ-A"] (fun _ => true) "REQ-B"
      (by decide) (by decide) (by decide)⟩

/-- C3 counterexample: a mixed run.  The journal holds two unsynced
records; `entryA`'s id is already present remotely, `entryB`'s is not, so
`records_to_sync = [entryB]` is non-empty and the run takes the push-loop
branch, which never calls `_mark_records_as_synced`.  After the run
`entryB` is marked synced but `entryA` — unsynced and already remote — is
left with `SharePoint_Synced = false`, refuting the claim that every such
record ends the run synced. -/
theorem sync_mixed_run_skips_already_remote :
    entryA.sharePointSynced = false ∧
    entryA.requestId ∈ existingIdsOf ["REQ-A"] ∧
    (sync_json_to_sharepoint true (.good [entryA, entryB]) ["REQ-A"]
        (fun _ => true)).file =
      .good [entryA, { entryB with sharePointSynced := true }] := by
  refine ⟨rfl, by decide, by decide⟩

/-- Mark every entry whose id lies in `s` as synced.  Closed form of the
`_mark_records_as_synced` fold, used to reason about it. -/
def markIf (s : List String) (l : List Entry) : List Entry :=
  l.map (fun x =>
    if x.requestId ∈ s then { x with sharePointSynced := true } else x)

theorem markIf_nil (l : List Entry) : markIf [] l = l := by
  simp [markIf]

theorem markIf_congr {s₁ s₂ : List String} {l : List Entry}
    (h : ∀ y ∈ l, (y.requestId ∈ s₁ ↔ y.requestId ∈ s₂)) :
    markIf s₁ l = markIf s₂ l := by
  induction l with
  | nil => rfl
  | cons x xs ih =>
    simp only [markIf, List.map_cons]
    have hx := h x (by simp)
    have htail : markIf s₁ xs = markIf s₂ xs :=
      ih fun y hy => h y (by simp [hy])
    by_cases hmem : x.requestId ∈ s₁
    · rw [if_pos hmem, if_pos (hx.1 hmem)]
      simpa [markIf] using htail
    · rw [if_neg hmem, if_neg (fun hc => hmem (hx.2 hc))]
      simpa [markIf] using htail

theorem markSyncedFirstEq_markIf (u : Entry) :
    ∀ (l : List Entry) (s : List String),
      (l.map (fun r => r.requestId)).Nodup → u ∈ l → u.requestId ∉ s →
      markSyncedFirstEq (markIf s l) u = markIf (s ++ [u.requestId]) l := by
  intro l
  induction l with
  | nil => intro s _ hu _; exact absurd hu (List.not_mem_nil u)
  | cons x xs ih =>
    intro s hnd hu hs
    simp only [List.map_cons] at hnd
    rcases List.nodup_cons.1 hnd with ⟨hxnot, hnd'⟩
    have hcons : ∀ t : List String, markIf t (x :: xs) =
        (if x.requestId ∈ t then { x with sharePointSynced := true } else x) ::
          markIf t xs := by
      intro t
      simp only [markIf, List.map_cons]
    by_cases hid : x.requestId = u.requestId
    · have hxu : x = u := by
        rcases List.mem_cons.1 hu with h' | h'
        · exact h'.symm
        · exact absurd (hid ▸ List.mem_map_of_mem (fun r => r.requestId) h')
            hxnot
      subst hxu
      have htail : markIf (s ++ [x.requestId]) xs = markIf s xs := by
        refine markIf_congr fun y hy => ?_
        have hne : y.requestId ≠ x.requestId := by
          intro hc
          exact hxnot (hc ▸ List.mem_map_of_mem (fun r => r.requestId) hy)
        simp [List.mem_append, hne]
      rw [hcons s, if_neg hs, hcons (s ++ [x.requestId]),
        if_pos (by simp : x.requestId ∈ s ++ [x.requestId]), htail]
      simp [markSyncedFirstEq]
    · have hu' : u ∈ xs := by
        rcases List.mem_cons.1 hu with h' | h'
        · exact absurd (h' ▸ rfl) (Ne.symm hid)
        · exact h'
      have hhead : (if x.requestId ∈ s then
          { x with sharePointSynced := true } else x) ≠ u := by
        intro hc
        apply hid
        rw [← hc]
        by_cases hmem : x.requestId ∈ s <;> simp [hmem]
      rw [hcons s, hcons (s ++ [u.requestId])]
      have hstep : markSyncedFirstEq
          ((if x.requestId ∈ s then { x with sharePointSynced := true } else x) ::
            markIf s xs) u =
          (if x.requestId ∈ s then { x with sharePointSynced := true } else x) ::
            markSyncedFirstEq (markIf s xs) u := by
        simp only [markSyncedFirstEq, if_neg hhead]
      rw [hstep, ih s hnd' hu' hs]
      have hxmem : (x.requestId ∈ s ++ [u.requestId]) ↔ x.requestId ∈ s := by
        simp [List.mem_append, hid]
      by_cases hmem : x.requestId ∈ s
      · rw [if_pos hmem, if_pos (hxmem.2 hmem)]
      · rw [if_neg hmem, if_neg (fun hc => hmem (hxmem.1 hc))]

theorem markRecordsAsSynced_eq_markIf (records : List Entry)
    (existing : List String)
    (hnd : (records.map (fun r => r.requestId)).Nodup) :
    ∀ (us : List Entry) (s : List String),
      (∀ u ∈ us, u ∈ records) →
      ((us.map (fun r => r.requestId)).Nodup) →
      (∀ u ∈ us, u.requestId ∉ s) →
      us.foldl
        (fun recs r =>
          if r.requestId ∈ existing then markSyncedFirstEq recs r else recs)
        (markIf s records) =
      markIf (s ++ (us.filter
        (fun u => decide (u.requestId ∈ existing))).map
          (fun r => r.requestId)) records := by
  intro us
  induction us with
  | nil => intro s _ _ _; simp
  | cons u rest ih =>
    intro s hsub hndu hnotin
    simp only [List.map_cons] at hndu
    rcases List.nodup_cons.1 hndu with ⟨hunot, hndu'⟩
    rw [List.foldl_cons]
    by_cases hc : u.requestId ∈ existing
    · rw [if_pos hc,
        markSyncedFirstEq_markIf u records s hnd (hsub u (by simp))
          (hnotin u (by simp))]
      rw [ih (s ++ [u.requestId]) (fun v hv => hsub v (by simp [hv])) hndu'
        (by
          intro v hv
          simp only [List.mem_append, List.mem_singleton]
          rintro (h' | h')
          · exact hnotin v (by simp [hv]) h'
          · exact hunot (h' ▸ List.mem_map_of_mem (fun r => r.requestId) hv))]
      rw [List.filter_cons, if_pos (by simpa using hc)]
      simp [List.append_assoc]
    · rw [if_neg hc]
      rw [ih s (fun v hv => hsub v (by simp [hv])) hndu'
        (fun v hv => hnotin v (by simp [hv]))]
      rw [List.filter_cons, if_neg (by simpa using hc)]

/-- C3 amended: `_mark_records_as_synced` runs only when
`records_to_sync` is empty, i.e. when every unsynced record's id is already
present remotely (or blank).  In that case — and, per the counterexample,
only in that case — every journal record that entered the run with
`SharePoint_Synced = false` and whose `Request_ID` is in the existing-ID
set ends the run with `SharePoint_Synced = true` (assuming journal ids are
unique, which the spec states as an invariant).  In mixed runs the
already-remote unsynced records are left untouched until a later run. -/
theorem sync_all_remote_marks_synced (records : List Entry)
    (remoteRows : List String) (pushOk : Entry → Bool)
    (hnd : (records.map (fun r => r.requestId)).Nodup)
    (hall : recordsToSyncOf (unsyncedOf records) (existingIdsOf remoteRows) = [])
    (i : Nat) (hi : i < records.length)
    (hunsync : (records.get ⟨i, hi⟩).sharePointSynced = false)
    (hmem : (records.get ⟨i, hi⟩).requestId ∈ existingIdsOf remoteRows) :
    ∃ final : List Entry,
      (sync_json_to_sharepoint true (.good records) remoteRows pushOk).file =
        .good final ∧
      final.length = records.length ∧
      ∃ e : Entry, final.get? i = some e ∧ e.sharePointSynced = true := by
  classical
  have h0 : records ≠ [] := by
    intro h'
    rw [h'] at hi
    exact absurd hi (by simp)
  have hmemrec : records.get ⟨i, hi⟩ ∈ records := List.get_mem records i hi
  have humem : records.get ⟨i, hi⟩ ∈ unsyncedOf records :=
    List.mem_filter.2 ⟨hmemrec, by simpa using hunsync⟩
  have h1 : unsyncedOf records ≠ [] := List.ne_nil_of_mem humem
  have hfile : (sync_json_to_sharepoint true (.good records) remoteRows
      pushOk).file =
      .good (markRecordsAsSynced records (unsyncedOf records)
        (existingIdsOf remoteRows)) := by
    simp [sync_json_to_sharepoint, h0, h1, hall]
  have hus_sub : ∀ u ∈ unsyncedOf records, u ∈ records :=
    fun u hu => List.mem_of_mem_filter hu
  have hus_nd : ((unsyncedOf records).map (fun r => r.requestId)).Nodup :=
    hnd.sublist ((List.filter_sublist records).map (fun r => r.requestId))
  have hfold := markRecordsAsSynced_eq_markIf records (existingIdsOf remoteRows)
    hnd (unsyncedOf records) [] hus_sub hus_nd (by simp)
  rw [markIf_nil] at hfold
  have hfinal : markRecordsAsSynced records (unsyncedOf records)
      (existingIdsOf remoteRows) =
      markIf (((unsyncedOf records).filter
        (fun u => decide (u.requestId ∈ existingIdsOf remoteRows))).map
          (fun r => r.requestId)) records := by
    simpa [markRecordsAsSynced] using hfold
  refine ⟨_, hfile, ?_, ?_⟩
  · rw [hfinal]; simp [markIf]
  · rw [hfinal]
    have hidmem : (records.get ⟨i, hi⟩).requestId ∈
        ((unsyncedOf records).filter
          (fun u => decide (u.requestId ∈ existingIdsOf remoteRows))).map
            (fun r => r.requestId) := by
      refine List.mem_map_of_mem (fun r : Entry => r.requestId) ?_
      exact List.mem_filter.2 ⟨humem, by simpa using hmem⟩
    refine ⟨{ records.get ⟨i, hi⟩ with sharePointSynced := true }, ?_, rfl⟩
    have hilt : i < (markIf (((unsyncedOf records).filter
        (fun u => decide (u.requestId ∈ existingIdsOf remoteRows))).map
          (fun r => r.requestId)) records).length := by
      simpa [markIf] using hi
    rw [List.get?_eq_getElem?, List.getElem?_eq_getElem hilt]
    simp only [markIf, List.getElem_map]
    rw [if_pos (by simpa using hidmem)]
    simp [List.get_eq_getElem]

/-- Witness for `sync_all_remote_marks_synced`: a one-record journal whose
only unsynced record is already present remotely. -/
theorem sync_all_remote_marks_synced_witness :
    ([entryA].map (fun r => r.requestId)).Nodup ∧
    recordsToSyncOf (unsyncedOf [entryA]) (existingIdsOf ["REQ-A"]) = [] ∧
    (∃ final : List Entry,
      (sync_json_to_sharepoint true (.good [entryA]) ["REQ-A"]
          (fun _ => true)).file = .good final ∧
      final.length = [entryA].length ∧
      ∃ e : Entry, final.get? 0 = some e ∧ e.sharePointSynced = true) :=
  ⟨by decide, by decide,
    sync_all_remote_marks_synced [entryA] ["REQ-A"] (fun _ => true)
      (by decide) (by decide) 0 (by decide) (by decide) (by decide)⟩

/-- Outcome of one download/modify/upload attempt of
`SchedulerManager._save_via_traditional` (scheduler_manager.py lines
324-387): success, a locked-resource-class failure (the `is_locked`
indicator list at lines 374-377 matches), or a failure of any other
class. -/
inductive PushOutcome
  | ok
  | locked
  | otherFailure
deriving Repr, DecidableEq

/-- Observable behaviour of one `_save_via_traditional` call: how many
attempts ran, the waits slept between attempts (seconds), and whether the
call returned normally (`true`) or raised (`false`). -/
structure TradResult where
  attempts : Nat
  waits : List Nat
  success : Bool
deriving Repr, DecidableEq

/-- The retry loop of `_save_via_traditional` (scheduler_manager.py lines
322-387).  `attempt` is the Python loop variable, `k` the number of
iterations left in `range(max_retries)`.  On success the loop returns; on a
locked-class failure with `attempt < max_retries - 1` (i.e. `0 < k` after
this iteration) it sleeps `(attempt + 1) * retry_wait_multiplier` seconds
and retries; on a locked-class failure at the last attempt, or on any other
failure class, it re-raises immediately. -/
def tradLoop (mult : Nat) (outcome : Nat → PushOutcome) :
    Nat → Nat → TradResult
  | _, 0 => ⟨0, [], false⟩
  | attempt, k + 1 =>
    match outcome attempt with
    | .ok => ⟨1, [], true⟩
    | .locked =>
      if 0 < k then
        let rest := tradLoop mult outcome (attempt + 1) k
        ⟨rest.attempts + 1, (attempt + 1) * mult :: rest.waits, rest.success⟩
      else ⟨1, [], false⟩
    | .otherFailure => ⟨1, [], false⟩

/-- `SchedulerManager._save_via_traditional` (scheduler_manager.py lines
304-390): run the retry loop from attempt 0 with `max_retries` iterations
available. -/
def save_via_traditional (maxRetries mult : Nat)
    (outcome : Nat → PushOutcome) : TradResult :=
  tradLoop mult outcome 0 maxRetries

theorem tradLoop_all_locked (mult : Nat) (outcome : Nat → PushOutcome)
    (h : ∀ i, outcome i = .locked) :
    ∀ (k a : Nat), 0 < k →
      tradLoop mult outcome a k =
        ⟨k, (List.range (k - 1)).map (fun j => (a + 1 + j) * mult), false⟩ := by
  intro k
  induction k with
  | zero => intro a ha; exact absurd ha (by simp)
  | succ k ih =>
    intro a _
    rw [show tradLoop mult outcome a (k + 1) =
        match outcome a with
        | .ok => ⟨1, [], true⟩
        | .locked =>
          if 0 < k then
            let rest := tradLoop mult outcome (a + 1) k
            ⟨rest.attempts + 1, (a + 1) * mult :: rest.waits, rest.success⟩
          else ⟨1, [], false⟩
        | .otherFailure => ⟨1, [], false⟩ from rfl, h a]
    by_cases hk : 0 < k
    · rw [if_pos hk]
      rw [ih (a + 1) hk]
      simp only [Nat.add_sub_cancel]
      have hrange : List.range k = 0 :: (List.range (k - 1)).map Nat.succ := by
        conv_lhs => rw [show k = (k - 1) + 1 from by omega]
        rw [List.range_succ_eq_map]
      rw [hrange]
      simp only [List.map_cons, List.map_map]
      refine TradResult.mk.injEq _ _ _ _ _ _ ▸ ⟨rfl, ?_, rfl⟩
      have harg : (a + 1 + 0) * mult = (a + 1) * mult := by ring_nf
      rw [harg]
      refine congrArg (List.cons _) ?_
      refine List.map_congr_left fun j hj => ?_
      simp only [Function.comp, Nat.succ_eq_add_one]
      ring
    · rw [if_neg hk]
      have hk0 : k = 0 := by omega
      subst hk0
      simp

theorem syncLoop_records_none (toSync : List Entry) :
    ∀ st : LoopState,
      (syncLoop (fun _ => false) toSync st).records = st.records := by
  induction toSync with
  | nil => intro st; simp [syncLoop]
  | cons r rest ih =>
    intro st
    have hstep : syncLoop (fun _ => false) (r :: rest) st =
        syncLoop (fun _ => false) rest
          { st with failedCount := st.failedCount + 1 } := by
      simp [syncLoop]
    rw [hstep, ih]

/-- C4: when every attempt of the traditional download/upload path fails
with a locked-resource-class error, exactly `max_retries` attempts run,
with strictly increasing waits of `(attempt + 1) * retry_wait_multiplier`
seconds between consecutive attempts, and the call finally raises; a
failure of any other class on the first attempt is not retried at all; and
a run of the sync engine in which every per-record push fails leaves the
journal unchanged (every affected record keeps `SharePoint_Synced = false`)
and returns normally — the per-record `except` and the outer `except`
swallow the errors. -/
theorem locked_retry_policy (n m : Nat) (outcome : Nat → PushOutcome)
    (records : List Entry) (remoteRows : List String)
    (hn : 1 ≤ n) (hm : 0 < m) (hlock : ∀ i, outcome i = .locked)
    (hts : recordsToSyncOf (unsyncedOf records) (existingIdsOf remoteRows) ≠ []) :
    (save_via_traditional n m outcome).attempts = n ∧
    (save_via_traditional n m outcome).waits =
      (List.range (n - 1)).map (fun j => (j + 1) * m) ∧
    (save_via_traditional n m outcome).waits.Pairwise (· < ·) ∧
    (save_via_traditional n m outcome).success = false ∧
    (∀ outcome' : Nat → PushOutcome, outcome' 0 = .otherFailure →
      save_via_traditional n m outcome' = ⟨1, [], false⟩) ∧
    (sync_json_to_sharepoint true (.good records) remoteRows
        (fun _ => false)).file = .good records := by
  have hrun : save_via_traditional n m outcome =
      ⟨n, (List.range (n - 1)).map (fun j => (0 + 1 + j) * m), false⟩ :=
    tradLoop_all_locked m outcome hlock n 0 hn
  have hwaits : (List.range (n - 1)).map (fun j => (0 + 1 + j) * m) =
      (List.range (n - 1)).map (fun j => (j + 1) * m) := by
    refine List.map_congr_left fun j hj => by ring_nf
  refine ⟨by rw [hrun], by rw [hrun, hwaits], ?_, by rw [hrun], ?_, ?_⟩
  · rw [hrun, hwaits]
    refine List.pairwise_map.2 ?_
    have hp : (List.range (n - 1)).Pairwise (· < ·) := List.pairwise_lt_range _
    refine hp.imp ?_
    intro a b hab
    have : a + 1 < b + 1 := by omega
    exact Nat.mul_lt_mul_of_lt_of_le this (le_refl m) hm
  · intro outcome' h0
    obtain ⟨n', rfl⟩ : ∃ n', n = n' + 1 := ⟨n - 1, by omega⟩
    rw [show save_via_traditional (n' + 1) m outcome' =
        match outcome' 0 with
        | .ok => ⟨1, [], true⟩
        | .locked =>
          if 0 < n' then
            let rest := tradLoop m outcome' 1 n'
            ⟨rest.attempts + 1, 1 * m :: rest.waits, rest.success⟩
          else ⟨1, [], false⟩
        | .otherFailure => ⟨1, [], false⟩ from rfl, h0]
  · rcases List.exists_mem_of_ne_nil _ hts with ⟨r, hr⟩
    have hru : r ∈ unsyncedOf records := (mem_recordsToSyncOf.1 hr).1
    have hrr : r ∈ records := List.mem_of_mem_filter hru
    have h0 : records ≠ [] := List.ne_nil_of_mem hrr
    have h1 : unsyncedOf records ≠ [] := List.ne_nil_of_mem hru
    simp [sync_json_to_sharepoint, h0, h1, hts, syncLoop_records_none]

/-- Witness for `locked_retry_policy` with the default configuration
(`max_retries = 3`, `retry_wait_multiplier = 2`), an always-locked remote
and a one-record journal that needs pushing. -/
theorem locked_retry_policy_witness :
    (1 ≤ 3 ∧ 0 < 2 ∧ (∀ i : Nat, (fun _ => PushOutcome.locked) i = PushOutcome.locked) ∧
      recordsToSyncOf (unsyncedOf [entryB]) (existingIdsOf []) ≠ []) ∧
    ((save_via_traditional 3 2 (fun _ => PushOutcome.locked)).attempts = 3 ∧
     (save_via_traditional 3 2 (fun _ => PushOutcome.locked)).waits =
       (List.range (3 - 1)).map (fun j => (j + 1) * 2) ∧
     (save_via_traditional 3 2 (fun _ => PushOutcome.locked)).waits.Pairwise (· < ·) ∧
     (save_via_traditional 3 2 (fun _ => PushOutcome.locked)).success = false ∧
     (∀ outcome' : Nat → PushOutcome, outcome' 0 = .otherFailure →
       save_via_traditional 3 2 outcome' = ⟨1, [], false⟩) ∧
     (sync_json_to_sharepoint true (.good [entryB]) []
         (fun _ => false)).file = .good [entryB]) :=
  ⟨⟨by decide, by decide, fun _ => rfl, by decide⟩,
    locked_retry_policy 3 2 (fun _ => PushOutcome.locked) [entryB] []
      (by decide) (by decide) (fun _ => rfl) (by decide)⟩

/-- A journal-store mutation call: an append
(`JSONHelper.save_initial_record` with its fresh row) or a patch-by-index
(`JSONHelper.update_sync_status`). -/
inductive JCall
  | append (row : Entry)
  | patch (idx : Nat) (v : Bool)
deriving Repr, DecidableEq

/-- One scheduling event of a concurrent execution.  Both journal
operations are read-whole / modify / write-whole over the shared backup
file with no lock, so each call `i` performs a read of the file followed
later by a write of its modified snapshot; between the two, other calls
may run. -/
inductive JEvent
  | readFile (i : Nat)
  | writeFile (i : Nat)
deriving Repr, DecidableEq

/-- Execution state of a set of concurrent journal calls: the shared file
contents and, per call, the snapshot it loaded (if its read already
happened). -/
structure ConcState where
  file : List Entry
  snaps : Nat → Option (List Entry)

/-- The in-range patch of `update_sync_status` (json_helper.py lines
113-114) applied to a loaded snapshot: set `SharePoint_Synced` of the entry
at `idx`, or leave the snapshot unchanged when the index is out of
range. -/
def applyPatch (l : List Entry) (idx : Nat) (v : Bool) : List Entry :=
  if h : idx < l.length then
    l.set idx { l.get ⟨idx, h⟩ with sharePointSynced := v }
  else l

/-- One step of the concurrent execution: a read stores the current file as
call `i`'s snapshot; a write replaces the file with call `i`'s modified
snapshot (append: snapshot plus the new row, json_helper.py lines 76-83;
patch: snapshot with the entry updated, lines 109-118). -/
def concStep (calls : List JCall) (s : ConcState) (e : JEvent) : ConcState :=
  match e with
  | .readFile i =>
    { s with snaps := fun j => if j = i then some s.file else s.snaps j }
  | .writeFile i =>
    match s.snaps i, calls.get? i with
    | some snap, some (.append row) => { s with file := snap ++ [row] }
    | some snap, some (.patch idx v) => { s with file := applyPatch snap idx v }
    | _, _ => s

/-- Run a schedule of read/write events for the given calls over an initial
journal, returning the final journal file. -/
def runSchedule (calls : List JCall) (events : List JEvent)
    (init : List Entry) : List Entry :=
  (events.foldl (concStep calls) ⟨init, fun _ => none⟩).file

/-- Number of append calls in a call list. -/
def countAppends (calls : List JCall) : Nat :=
  calls.countP (fun c => match c with | .append _ => true | .patch _ _ => false)

/-- The atomic (serialized) effect of one journal call. -/
def applyCall (l : List Entry) : JCall → List Entry
  | .append row => l ++ [row]
  | .patch idx v => applyPatch l idx v

/-- Serialized execution: every call's read is immediately followed by its
write, so calls compose atomically. -/
def runSeq (init : List Entry) (calls : List JCall) : List Entry :=
  calls.foldl applyCall init

/-- The serialized schedule for calls `k, k+1, ...`: each call reads and
immediately writes. -/
def seqEventsFrom : Nat → Nat → List JEvent
  | _, 0 => []
  | k, m + 1 => .readFile k :: .writeFile k :: seqEventsFrom (k + 1) m

/-- The serialized schedule for a whole call list. -/
def seqEvents (calls : List JCall) : List JEvent :=
  seqEventsFrom 0 calls.length

/-- Whether a call is a patch of index `idx`. -/
def isPatchOn (idx : Nat) : JCall → Bool
  | .patch j _ => j == idx
  | .append _ => false

theorem runSchedule_seqFrom (calls : List JCall) :
    ∀ (m k : Nat) (s : ConcState), k + m ≤ calls.length →
      (List.foldl (concStep calls) s (seqEventsFrom k m)).file =
        List.foldl applyCall s.file ((calls.drop k).take m) := by
  intro m
  induction m with
  | zero => intro k s _; rfl
  | succ m ih =>
    intro k s h
    have hk : k < calls.length := by omega
    have hget : calls[k]? = some (calls.get ⟨k, hk⟩) := by
      rw [List.getElem?_eq_getElem hk]
      rfl
    show (List.foldl (concStep calls)
      (concStep calls (concStep calls s (.readFile k)) (.writeFile k))
      (seqEventsFrom (k + 1) m)).file = _
    rw [ih (k + 1) _ (by omega)]
    have hsnap : (concStep calls s (.readFile k)).snaps k = some s.file := by
      simp [concStep]
    have hfile : (concStep calls (concStep calls s (.readFile k))
        (.writeFile k)).file = applyCall s.file (calls.get ⟨k, hk⟩) := by
      cases hc : calls.get ⟨k, hk⟩ with
      | append row =>
        rw [hc] at hget
        simp [concStep, hsnap, hget, applyCall]
      | patch idx v =>
        rw [hc] at hget
        simp [concStep, hsnap, hget, applyCall]
    rw [hfile]
    have hdrop : (calls.drop k).take (m + 1) =
        calls.get ⟨k, hk⟩ :: (calls.drop (k + 1)).take m := by
      rw [List.drop_eq_getElem_cons hk, List.take_succ_cons]
      rfl
    rw [hdrop, List.foldl_cons]

theorem applyCall_length (l : List Entry) (c : JCall) :
    l.length ≤ (applyCall l c).length ∧
    (applyCall l c).length ≤ l.length + 1 := by
  cases c with
  | append row => simp [applyCall]
  | patch idx v =>
    simp only [applyCall, applyPatch]
    split <;> simp

theorem runSeq_length (calls : List JCall) :
    ∀ init : List Entry,
      (runSeq init calls).length = init.length + countAppends calls := by
  induction calls with
  | nil => intro init; simp [runSeq, countAppends]
  | cons c rest ih =>
    intro init
    have hstep : runSeq init (c :: rest) = runSeq (applyCall init c) rest := rfl
    rw [hstep, ih]
    cases c with
    | append row => simp [applyCall, countAppends, List.countP_cons]; omega
    | patch idx v =>
      simp only [applyCall, applyPatch, countAppends, List.countP_cons]
      split <;> simp

theorem runSeq_get?_preserved (idx : Nat) :
    ∀ (cs : List JCall) (s : List Entry),
      idx < s.length → (∀ c ∈ cs, isPatchOn idx c = false) →
      (runSeq s cs).get? idx = s.get? idx := by
  intro cs
  induction cs with
  | nil => intro s _ _; rfl
  | cons c rest ih =>
    intro s hlen hnone
    have hstep : runSeq s (c :: rest) = runSeq (applyCall s c) rest := rfl
    rw [hstep]
    have hlen' : idx < (applyCall s c).length :=
      lt_of_lt_of_le hlen (applyCall_length s c).1
    rw [ih (applyCall s c) hlen' (fun d hd => hnone d (by simp [hd]))]
    cases c with
    | append row =>
      simp only [applyCall]
      rw [List.get?_eq_getElem?, List.get?_eq_getElem?,
        List.getElem?_append_left hlen]
    | patch j v =>
      have hj : j ≠ idx := by
        have := hnone (.patch j v) (by simp)
        simpa [isPatchOn] using this
      simp only [applyCall, applyPatch]
      split
      · rw [List.get?_eq_getElem?, List.get?_eq_getElem?,
          List.getElem?_set_ne hj]
      · rfl

/-- C1 counterexample: two concurrent appends, both of which load the
journal before either writes it back (`readFile 0, readFile 1, writeFile 0,
writeFile 1`).  Each call read-modifies-writes the whole shared file with
no lock, so the second write overwrites the first: the final journal holds
only `entryB` and has length 1, although 2 appends ran.  This refutes the
claimed atomicity of concurrent `save_initial_record` calls. -/
theorem concurrent_appends_lose_update :
    countAppends [JCall.append entryA, JCall.append entryB] = 2 ∧
    runSchedule [JCall.append entryA, JCall.append entryB]
      [.readFile 0, .readFile 1, .writeFile 0, .writeFile 1] [] = [entryB] ∧
    (runSchedule [JCall.append entryA, JCall.append entryB]
      [.readFile 0, .readFile 1, .writeFile 0, .writeFile 1] []).length ≠ 2 := by
  refine ⟨rfl, rfl, by decide⟩

/-- C1 amended: the no-lost-write guarantees hold for serialized
executions (each call's read immediately followed by its write), which is
what the journal store provides when callers do not overlap: the final
journal length equals the initial length plus the number of appends, and a
patch whose index is in range and which no later call patches again is
visible in the final snapshot.  Under concurrent interleavings the
guarantee fails (see the counterexample). -/
theorem serialized_journal_calls :
    (∀ (init : List Entry) (calls : List JCall),
      (runSchedule calls (seqEvents calls) init).length =
        init.length + countAppends calls) ∧
    (∀ (init : List Entry) (cs₁ cs₂ : List JCall) (idx : Nat) (v : Bool),
      idx < init.length + countAppends cs₁ →
      (∀ c ∈ cs₂, isPatchOn idx c = false) →
      ∃ e : Entry,
        (runSchedule (cs₁ ++ .patch idx v :: cs₂)
          (seqEvents (cs₁ ++ .patch idx v :: cs₂)) init).get? idx = some e ∧
        e.sharePointSynced = v) := by
  have hbridge : ∀ (calls : List JCall) (init : List Entry),
      runSchedule calls (seqEvents calls) init = runSeq init calls := by
    intro calls init
    have := runSchedule_seqFrom calls calls.length 0 ⟨init, fun _ => none⟩
      (by omega)
    simpa [runSchedule, seqEvents, runSeq] using this
  constructor
  · intro init calls
    rw [hbridge, runSeq_length]
  · intro init cs₁ cs₂ idx v hidx hlast
    rw [hbridge]
    have hsplit : runSeq init (cs₁ ++ .patch idx v :: cs₂) =
        runSeq (applyCall (runSeq init cs₁) (.patch idx v)) cs₂ := by
      simp [runSeq, List.foldl_append]
    rw [hsplit]
    have hmidlen : (runSeq init cs₁).length = init.length + countAppends cs₁ :=
      runSeq_length cs₁ init
    have hlt : idx < (runSeq init cs₁).length := by omega
    have hpatch : applyCall (runSeq init cs₁) (.patch idx v) =
        (runSeq init cs₁).set idx
          { (runSeq init cs₁).get ⟨idx, hlt⟩ with sharePointSynced := v } := by
      simp [applyCall, applyPatch, dif_pos hlt]
    rw [hpatch]
    have hlen' : idx < ((runSeq init cs₁).set idx
        { (runSeq init cs₁).get ⟨idx, hlt⟩ with sharePointSynced := v }).length := by
      simpa using hlt
    rw [runSeq_get?_preserved idx cs₂ _ hlen' hlast]
    refine ⟨{ (runSeq init cs₁).get ⟨idx, hlt⟩ with sharePointSynced := v }, ?_, rfl⟩
    rw [List.get?_eq_getElem?, List.getElem?_set_self']
    simp [List.getElem?_eq_getElem hlt]

/-- Witness for `serialized_journal_calls`: one serialized append followed
by a patch of index 0. -/
theorem serialized_journal_calls_witness :
    (0 < ([] : List Entry).length + countAppends [JCall.append entryA] ∧
      (∀ c ∈ ([] : List JCall), isPatchOn 0 c = false)) ∧
    (∃ e : Entry,
      (runSchedule [JCall.append entryA, .patch 0 true]
        (seqEvents [JCall.append entryA, .patch 0 true]) []).get? 0 = some e ∧
      e.sharePointSynced = true) :=
  ⟨⟨by decide, by decide⟩,
    serialized_journal_calls.2 [] [JCall.append entryA] [] 0 true
      (by decide) (by decide)⟩

/-- One item of the remote attachments folder listing
(`SharePointHelper.get_folder_childrens`): its name, whether it is a
folder, and its `createdDateTime` (absent when the metadata lacks it),
modelled as an integer timestamp in days. -/
structure RemoteFile where
  name : String
  isFolder : Bool
  created : Option Int
deriving Repr, DecidableEq

/-- Result of `SharePointHelper.delete_file` for one file, as observed by
the cleanup loop (scheduler_manager.py lines 221-230): the delete
succeeded, returned `False`, or raised. -/
inductive DeleteOutcome
  | deleted
  | returnedFalse
  | raised
deriving Repr, DecidableEq

/-- `SharePointHelper.get_files_older_than` (sharepoint_helper.py lines
676-711): keep the non-folder children whose `createdDateTime` is present
and earlier than `now - days`. -/
def get_files_older_than (children : List RemoteFile) (now : Int)
    (days : Nat) : List RemoteFile :=
  children.filter (fun c =>
    !c.isFolder &&
      match c.created with
      | some t => decide (t < now - (days : Int))
      | none => false)

/-- The state visible to the retention sweep: the journal file and the
remote attachments folder's children. -/
structure CleanupState where
  journal : FileState
  children : List RemoteFile
deriving Repr, DecidableEq

/-- `SchedulerManager.cleanup_old_attachments` (scheduler_manager.py lines
170-235): skip when SharePoint is disabled or the attachments folder is
missing; otherwise list the files older than the retention window and
delete each independently, counting deletions and failures (a `False`
return or a raised exception both count as failures and do not stop the
sweep).  Returns the new state plus the `(deleted_count, failed_count)`
pair.  The journal file is never touched. -/
def cleanup_old_attachments (enabled folderFound : Bool)
    (retentionDays : Nat) (now : Int) (st : CleanupState)
    (deleteResult : RemoteFile → DeleteOutcome) :
    CleanupState × Nat × Nat :=
  if !enabled then (st, 0, 0)
  else if !folderFound then (st, 0, 0)
  else
    let oldFiles := get_files_older_than st.children now retentionDays
    if oldFiles = [] then (st, 0, 0)
    else
      let counts := oldFiles.foldl
        (fun (acc : Nat × Nat) f =>
          match deleteResult f with
          | .deleted => (acc.1 + 1, acc.2)
          | .returnedFalse => (acc.1, acc.2 + 1)
          | .raised => (acc.1, acc.2 + 1))
        (0, 0)
      let remaining := st.children.filter
        (fun c => !(oldFiles.contains c && deleteResult c == .deleted))
      (⟨st.journal, remaining⟩, counts.1, counts.2)

/-- C9: the retention sweep never mutates the journal.  Whatever the
configuration, the clock, the folder contents and the per-file delete
outcomes, the journal file (and thus every `JournalEntry` in it) is exactly
what it was before the sweep. -/
theorem cleanup_preserves_journal (enabled folderFound : Bool)
    (retentionDays : Nat) (now : Int) (st : CleanupState)
    (deleteResult : RemoteFile → DeleteOutcome) :
    (cleanup_old_attachments enabled folderFound retentionDays now st
      deleteResult).1.journal = st.journal := by
  unfold cleanup_old_attachments
  split
  · rfl
  · split
    · rfl
    · dsimp only
      split
      · rfl
      · rfl

/-- Decimal digit character: `Char.ofNat (48 + d)` is `'0'..'9'` for
`d < 10`. -/
def decChar (d : Nat) : Char := Char.ofNat (48 + d)

/-- Fuelled big-endian decimal rendering, the effect of Python's
`str(int)` inside the f-string. -/
def decRepAux : Nat → Nat → List Char
  | 0, _ => []
  | fuel + 1, n =>
    if n < 10 then [decChar n]
    else decRepAux fuel (n / 10) ++ [decChar (n % 10)]

/-- Decimal rendering of a natural number (`str(rand)`). -/
def decRep (n : Nat) : List Char := decRepAux (n + 1) n

/-- The request-id generator of `submit_transport_request`
(fastapi_app.py lines 396-399):
`request_id = f"REQ-{now}-{rand}"` where `now` is
`datetime.now().strftime("%Y%m%d-%H%M%S")` and
`rand = random.randint(100, 999)`. -/
def genRequestId (now : String) (rand : Nat) : String :=
  "REQ-" ++ now ++ "-" ++ String.mk (decRep rand)

/-- A submission at intake, as far as id generation is concerned: the
timestamp string drawn from the clock, the random draw, and a
representative payload field that distinguishes distinct submissions. -/
structure Submission where
  now : String
  rand : Nat
  email : String
deriving Repr, DecidableEq

/-- The id assigned to a submission at intake. -/
def requestIdOf (s : Submission) : String := genRequestId s.now s.rand

/-- Two distinct submissions that arrive within the same clock second and
draw the same random suffix. -/
def submissionA : Submission := ⟨"20260101-120000", 100, "a@example.com"⟩

/-- A submission distinct from `submissionA` with the same second and
draw. -/
def submissionB : Submission := ⟨"20260101-120000", 100, "b@example.com"⟩

/-- C6 counterexample: `submissionA` and `submissionB` are distinct
submissions, yet the intake id generator gives them the same
`REQ-<timestamp>-<rand>` id, because the id depends only on the
second-resolution clock and a `randint(100, 999)` draw.  This refutes the
claimed id uniqueness under concurrent intakes. -/
theorem request_id_collision :
    submissionA ≠ submissionB ∧
    requestIdOf submissionA = requestIdOf submissionB :=
  ⟨by decide, by decide⟩

theorem decRepAux_fuel_inv :
    ∀ (n f₁ f₂ : Nat), n < f₁ → n < f₂ →
      decRepAux f₁ n = decRepAux f₂ n := by
  intro n
  induction n using Nat.strong_induction_on with
  | _ n ih =>
    intro f₁ f₂ h₁ h₂
    obtain ⟨g₁, rfl⟩ : ∃ g, f₁ = g + 1 := ⟨f₁ - 1, by omega⟩
    obtain ⟨g₂, rfl⟩ : ∃ g, f₂ = g + 1 := ⟨f₂ - 1, by omega⟩
    simp only [decRepAux]
    by_cases h10 : n < 10
    · rw [if_pos h10, if_pos h10]
    · rw [if_neg h10, if_neg h10]
      have hdiv : n / 10 < n := Nat.div_lt_self (by omega) (by omega)
      rw [ih (n / 10) hdiv g₁ g₂ (by omega) (by omega)]

theorem decRep_three (r : Nat) (h1 : 100 ≤ r) (h2 : r ≤ 999) :
    decRep r = [decChar (r / 100), decChar (r / 10 % 10), decChar (r % 10)] := by
  have hne10 : ¬ r < 10 := by omega
  have hdivr : r / 10 < r := Nat.div_lt_self (by omega) (by omega)
  have h10a : 10 ≤ r / 10 := by omega
  have hne10' : ¬ r / 10 < 10 := by omega
  have hdivr' : r / 10 / 10 < r / 10 := Nat.div_lt_self (by omega) (by omega)
  have hlt100 : r / 10 / 10 < 10 := by
    rw [Nat.div_div_eq_div_mul]
    omega
  show decRepAux (r + 1) r = _
  simp only [decRepAux, if_neg hne10]
  rw [decRepAux_fuel_inv (r / 10) r (r / 10 + 1) hdivr (by omega)]
  simp only [decRepAux, if_neg hne10']
  rw [decRepAux_fuel_inv (r / 10 / 10) (r / 10) (r / 10 / 10 + 1) hdivr'
    (by omega)]
  simp only [decRepAux, if_pos hlt100]
  rw [Nat.div_div_eq_div_mul]
  rfl

theorem decChar_digit_inj :
    ∀ d₁ < 10, ∀ d₂ < 10, decChar d₁ = decChar d₂ → d₁ = d₂ := by decide

/-- C6 amended: request ids are not injective in the submission — they
collide exactly when both the second-resolution timestamp string and the
random draw coincide (see the counterexample).  Whenever the timestamp
strings or the random draws (both in `randint`'s range 100..999) differ,
the generated ids differ. -/
theorem request_id_inj (s t : Submission)
    (hs1 : 100 ≤ s.rand) (hs2 : s.rand ≤ 999)
    (ht1 : 100 ≤ t.rand) (ht2 : t.rand ≤ 999)
    (hne : s.now ≠ t.now ∨ s.rand ≠ t.rand) :
    requestIdOf s ≠ requestIdOf t := by
  intro heq
  have hdata := congrArg String.data heq
  have hgen : ∀ (now : String) (rand : Nat), (genRequestId now rand).data =
      ("REQ-".data ++ (now.data ++ "-".data)) ++ decRep rand := by
    intro now rand
    show ("REQ-" ++ now ++ "-" ++ String.mk (decRep rand)).data = _
    rw [String.data_append, String.data_append, String.data_append]
    simp [List.append_assoc]
  rw [show requestIdOf s = genRequestId s.now s.rand from rfl,
    show requestIdOf t = genRequestId t.now t.rand from rfl, hgen, hgen] at hdata
  have hlen : (decRep s.rand).length = (decRep t.rand).length := by
    rw [decRep_three _ hs1 hs2, decRep_three _ ht1 ht2]
    rfl
  obtain ⟨hpre, hsuf⟩ := List.append_inj' hdata hlen
  have hnow : s.now = t.now := by
    have hx := List.append_cancel_left hpre
    exact String.ext (List.append_cancel_right hx)
  have hrand : s.rand = t.rand := by
    rw [decRep_three _ hs1 hs2, decRep_three _ ht1 ht2] at hsuf
    injection hsuf with e1 hsuf'
    injection hsuf' with e2 hsuf''
    injection hsuf'' with e3 _
    have d1 := decChar_digit_inj _ (by omega) _ (by omega) e1
    have d2 := decChar_digit_inj _ (by omega) _ (by omega) e2
    have d3 := decChar_digit_inj _ (by omega) _ (by omega) e3
    omega
  rcases hne with h | h
  · exact h hnow
  · exact h hrand

/-- A submission whose random draw differs from `submissionD`'s. -/
def submissionC : Submission := ⟨"20260101-120000", 101, "c@example.com"⟩

/-- A submission in the same second as `submissionC` but with a different
draw. -/
def submissionD : Submission := ⟨"20260101-120000", 102, "d@example.com"⟩

/-- Witness for `request_id_inj` at two concrete submissions whose draws
differ. -/
theorem request_id_inj_witness :
    (100 ≤ submissionC.rand ∧ submissionC.rand ≤ 999 ∧
     100 ≤ submissionD.rand ∧ submissionD.rand ≤ 999 ∧
     (submissionC.now ≠ submissionD.now ∨ submissionC.rand ≠ submissionD.rand)) ∧
    requestIdOf submissionC ≠ requestIdOf submissionD :=
  ⟨⟨by decide, by decide, by decide, by decide, Or.inr (by decide)⟩,
    request_id_inj submissionC submissionD (by decide) (by decide)
      (by decide) (by decide) (Or.inr (by decide))⟩

end TransportApp
